import Mathlib

/-!
Verification development for the `mirage` PLC-directory mirror.

The Go sources are shallowly embedded: pure helpers become Lean functions,
the PostgreSQL / Redis state becomes explicit record state, external
collaborators (the indigo crypto package, DNS, HTTP, `time.Parse`,
`encoding/json`'s text lexer) become explicit environment parameters, and Go
byte slices become `List Nat`.  Go's `nil`-pointer dereference panics are
modelled by a dedicated `GoResult.panicked` outcome.
-/

set_option maxRecDepth 4000

/-- Equality of `Except` values is decidable; used to settle concrete runs. -/
instance {ε α : Type} [DecidableEq ε] [DecidableEq α] : DecidableEq (Except ε α) := fun a b =>
  match a, b with
  | .error e, .error f =>
    if h : e = f then .isTrue (by rw [h]) else .isFalse (by intro c; cases c; exact h rfl)
  | .ok x, .ok y =>
    if h : x = y then .isTrue (by rw [h]) else .isFalse (by intro c; cases c; exact h rfl)
  | .error _, .ok _ => .isFalse (by intro c; cases c)
  | .ok _, .error _ => .isFalse (by intro c; cases c)

namespace Mirage

/-- Character-level test that `p` heads `s`; Go `strings.HasPrefix(s, p)`. -/
def strHasPre (s p : String) : Bool :=
  p.data.isPrefixOf s.data

/-- Go `strings.TrimPrefix(s, p)`: drops `p` when it heads `s`, else `s`. -/
def trimPre (s p : String) : String :=
  if strHasPre s p then ⟨s.data.drop p.data.length⟩ else s

/-- The `did:key:` marker (variable `didKeyPrefix` of the source). -/
def didKeyPre : String := "did:key:"

/-- The multibase base58btc tag (variable `base58MultibasePrefix`). -/
def base58MultibasePre : String := "z"

/-- Leading bytes of a P-256 multikey (variable `p256DidPrefix`). -/
def p256DidPre : List Nat := [0x80, 0x24]

/-- JWT algorithm id for P-256 (variable `p256JwtAlg`). -/
def p256JwtAlg : String := "ES256"

/-- Leading bytes of a secp256k1 multikey (variable `SECP256K1DidPrefix`). -/
def secp256k1DidPre : List Nat := [0xe7, 0x01]

/-- JWT algorithm id for secp256k1 (variable `SECP256K1JwtAlg`). -/
def secp256k1JwtAlg : String := "ES256K"

/-! ### base58btc decoding (the `mr-tron/base58` collaborator) -/

/-- The base58btc alphabet used by `mr-tron/base58`. -/
def b58Alphabet : List Char :=
  "123456789ABCDEFGHJKLMNPQRSTUVWXYZabcdefghijkmnopqrstuvwxyz".toList

/-- Index of a character in the base58 alphabet, `none` for an invalid digit. -/
def b58Index (c : Char) : Option Nat :=
  b58Alphabet.indexOf? c

/-- Big-endian byte expansion with explicit fuel (structural, so that concrete
runs reduce inside the kernel). -/
def natToBytesAux : Nat → Nat → List Nat
  | 0, _ => []
  | fuel + 1, n => if n = 0 then [] else natToBytesAux fuel (n / 256) ++ [n % 256]

/-- Big-endian byte expansion of a natural number (empty for `0`).  `n` itself
bounds the number of base-256 digits, so it serves as fuel. -/
def natToBytes (n : Nat) : List Nat :=
  natToBytesAux n n

/-- Accumulate base58 digits into a natural number; `none` on an invalid digit. -/
def b58Value : List Char → Nat → Option Nat
  | [], acc => some acc
  | c :: rest, acc =>
    match b58Index c with
    | none => none
    | some i => b58Value rest (acc * 58 + i)

/-- Go `base58.Decode`: leading alphabet zeros become `0x00` bytes, the rest is
a big-endian base-58 number.  Errors on the empty string and on characters
outside the alphabet. -/
def base58Decode (s : String) : Except String (List Nat) :=
  if s = "" then .error "zero length string"
  else
    let cs := s.toList
    let zeros := (cs.takeWhile (fun c => c = '1')).length
    match b58Value cs 0 with
    | none => .error "invalid base58 digit"
    | some v => .ok (List.replicate zeros 0 ++ natToBytes v)

/-! ### util.go: the multikey pipeline -/

/-- `extractMultikey` of util.go: require the `did:key:` head and strip it. -/
def extractMultikey (key : String) : Except String String :=
  if ¬ strHasPre key didKeyPre then .error "key is not a did:key"
  else .ok (trimPre key didKeyPre)

/-- `extractPrefixedBytes` of util.go: require the `z` multibase tag, strip it,
base58-decode the remainder. -/
def extractPrefixedBytes (multikey : String) : Except String (List Nat) :=
  if ¬ strHasPre multikey base58MultibasePre then
    .error "multikey is not prefixed correctly"
  else
    match base58Decode (trimPre multikey base58MultibasePre) with
    | .error e => .error ("failed to decode multikey: " ++ e)
    | .ok decoded => .ok decoded

/-- `hasPrefix` of util.go over byte slices. -/
def hasPre (bs pre : List Nat) : Bool :=
  if bs.length < pre.length then false
  else bs.take pre.length = pre

/-- `parsedMultikey` of util.go. -/
structure ParsedMultikey where
  jwtAlg : String
  keyBytes : List Nat
deriving DecidableEq, Repr

/-- The external `indigo/atproto/crypto` collaborator:
`ParsePublicBytesP256` / `ParsePublicBytesK256`, each returning the parsed
key's compressed bytes (`k.Bytes()`) or an error. -/
structure CryptoEnv where
  parseP256 : List Nat → Except String (List Nat)
  parseK256 : List Nat → Except String (List Nat)

/-- `parseMultikey` of util.go: strip `did:key:` and `z`, base58-decode, then
dispatch on the two-byte curve marker, delegating the key bytes to the crypto
collaborator. -/
def parseMultikey (env : CryptoEnv) (key : String) : Except String ParsedMultikey :=
  match extractMultikey key with
  | .error e => .error ("failed to extract multikey: " ++ e)
  | .ok multikey =>
  match extractPrefixedBytes multikey with
  | .error e => .error ("failed to extract prefixed bytes: " ++ e)
  | .ok decoded =>
  if hasPre decoded p256DidPre then
    match env.parseP256 (decoded.drop 2) with
    | .error e => .error ("failed to parse P256 key: " ++ e)
    | .ok k => .ok { jwtAlg := p256JwtAlg, keyBytes := k }
  else if hasPre decoded secp256k1DidPre then
    match env.parseK256 (decoded.drop 2) with
    | .error e => .error ("failed to parse SECP256K1 key: " ++ e)
    | .ok k => .ok { jwtAlg := secp256k1JwtAlg, keyBytes := k }
  else
    .error "unsupported key type"

/-- `keyAndContext` of util.go. -/
structure KeyAndContext where
  context : String
  type : String
  publicKeyMultibase : String
deriving DecidableEq, Repr

/-- Context URI emitted for P-256 keys. -/
def ecdsaContextURI : String := "https://w3id.org/security/suites/ecdsa-2019/v1"

/-- Context URI emitted for secp256k1 keys. -/
def secp256k1ContextURI : String := "https://w3id.org/security/suites/secp256k1-2019/v1"

/-- `formatKeyAndContext` of util.go: parse the multikey, map the algorithm to
its context URI, and emit the original string with only `did:key:` stripped as
`PublicKeyMultibase`. -/
def formatKeyAndContext (env : CryptoEnv) (key : String) : Except String KeyAndContext :=
  match parseMultikey env key with
  | .error e => .error ("failed to parse multikey: " ++ e)
  | .ok parsed =>
  if parsed.jwtAlg = p256JwtAlg then
    .ok { context := ecdsaContextURI, type := "Multikey",
          publicKeyMultibase := trimPre key didKeyPre }
  else if parsed.jwtAlg = secp256k1JwtAlg then
    .ok { context := secp256k1ContextURI, type := "Multikey",
          publicKeyMultibase := trimPre key didKeyPre }
  else
    .error "unsupported jwt alg"

/-- Trivial crypto collaborator used to instantiate the theorems: every byte
string is accepted verbatim. -/
def cenvOk : CryptoEnv :=
  { parseP256 := fun bs => .ok bs, parseK256 := fun bs => .ok bs }

/-! ### The operation codec (models.go, `encoding/json` semantics)

JSON documents are modelled as an AST; the byte-level lexer of `encoding/json`
is elided, so a `Json` value stands for the parsed text.  Go structs decode
field-by-field: a missing key or a JSON `null` leaves the zero value, a
wrong-typed value is an error, unknown keys are ignored.  Go maps are
unordered; they are modelled canonically as key-sorted association lists,
matching `encoding/json`'s key-sorted map output. -/

inductive Json where
  | null
  | bool (b : Bool)
  | num (n : Int)
  | str (s : String)
  | arr (elems : List Json)
  | obj (fields : List (String × Json))

/-- Look a key up among an object's fields; as in Go, a later duplicate key
overwrites an earlier one. -/
def Json.getField (fields : List (String × Json)) (k : String) : Option Json :=
  fields.foldl (fun acc p => if p.1 = k then some p.2 else acc) none

/-- Decode a `string` struct field: missing or `null` keeps the zero value. -/
def decStrField (fields : List (String × Json)) (k : String) : Except String String :=
  match Json.getField fields k with
  | none => .ok ""
  | some .null => .ok ""
  | some (.str s) => .ok s
  | some _ => .error ("cannot unmarshal into string field " ++ k)

/-- Decode a `*string` struct field: missing or `null` is the nil pointer. -/
def decOptStrField (fields : List (String × Json)) (k : String) : Except String (Option String) :=
  match Json.getField fields k with
  | none => .ok none
  | some .null => .ok none
  | some (.str s) => .ok (some s)
  | some _ => .error ("cannot unmarshal into string pointer field " ++ k)

/-- Decode a JSON value sitting in a `string` position (map element):
`null` keeps the zero string. -/
def decGoString : Json → Except String String
  | .null => .ok ""
  | .str s => .ok s
  | _ => .error "cannot unmarshal into string"

/-- Decode the elements of a `[]string`. -/
def decStrElems : List Json → Except String (List String)
  | [] => .ok []
  | e :: rest =>
    match decGoString e with
    | .error err => .error err
    | .ok s =>
      match decStrElems rest with
      | .error err => .error err
      | .ok l => .ok (s :: l)

/-- Decode a `[]string` struct field: missing or `null` is the nil slice. -/
def decStrListField (fields : List (String × Json)) (k : String) :
    Except String (Option (List String)) :=
  match Json.getField fields k with
  | none => .ok none
  | some .null => .ok none
  | some (.arr es) => (decStrElems es).map some
  | some _ => .error ("cannot unmarshal into string slice field " ++ k)

/-- A Go `map[string]α`, canonically represented with strictly increasing
keys (Go maps are unordered; `encoding/json` writes them key-sorted). -/
abbrev GoMap (α : Type) : Type := List (String × α)

/-- Insert into the canonical sorted representation, overwriting the key. -/
def goInsert {α : Type} : GoMap α → String → α → GoMap α
  | [], k, v => [(k, v)]
  | (k1, v1) :: rest, k, v =>
    if k < k1 then (k, v) :: (k1, v1) :: rest
    else if k = k1 then (k, v) :: rest
    else (k1, v1) :: goInsert rest k v

/-- Decode the fields of a JSON object into a Go map, accumulator-style. -/
def decodeMapPairs {α : Type} (dec : Json → Except String α) :
    List (String × Json) → GoMap α → Except String (GoMap α)
  | [], acc => .ok acc
  | (k, jv) :: rest, acc =>
    match dec jv with
    | .error e => .error e
    | .ok v => decodeMapPairs dec rest (goInsert acc k v)

/-- Decode a `map[string]α` struct field: missing or `null` is the nil map. -/
def decMapField {α : Type} (dec : Json → Except String α)
    (fields : List (String × Json)) (k : String) : Except String (Option (GoMap α)) :=
  match Json.getField fields k with
  | none => .ok none
  | some .null => .ok none
  | some (.obj pairs) => (decodeMapPairs dec pairs []).map some
  | some _ => .error ("cannot unmarshal into map field " ++ k)

/-- `PlcService` of models.go. -/
structure PlcService where
  type : String
  endpoint : String
deriving DecidableEq, Repr

/-- `PlcOperation` of models.go.  Nil slices/maps are `none`; `Prev` is a
`*string`. -/
structure PlcOperation where
  sig : String
  prev : Option String
  type : String
  services : Option (GoMap PlcService)
  alsoKnownAs : Option (List String)
  rotationKeys : Option (List String)
  verificationMethods : Option (GoMap String)
deriving DecidableEq, Repr

/-- `PlcTombstone` of models.go. -/
structure PlcTombstone where
  sig : String
  prev : String
  type : String
deriving DecidableEq, Repr

/-- `LegacyPlcOperation` of models.go. -/
structure LegacyPlcOperation where
  sig : String
  prev : String
  type : String
  handle : String
  service : String
  signingKey : String
  recoveryKey : String
deriving DecidableEq, Repr

/-- `PlcOperationType` of models.go: three pointers, at most one of which is
populated by the decoder's tagged branches (the fallback branch copies all
three). -/
structure PlcOperationType where
  plcOperation : Option PlcOperation
  plcTombstone : Option PlcTombstone
  legacyPlcOperation : Option LegacyPlcOperation
deriving DecidableEq, Repr

/-- The zero `PlcOperationType` (all pointers nil). -/
def PlcOperationType.zero : PlcOperationType := ⟨none, none, none⟩

/-- Decode a `PlcService` from JSON (`null` keeps the zero struct). -/
def decodePlcService : Json → Except String PlcService
  | .null => .ok { type := "", endpoint := "" }
  | .obj fields =>
    match decStrField fields "type" with
    | .error e => .error e
    | .ok ty =>
      match decStrField fields "endpoint" with
      | .error e => .error e
      | .ok ep => .ok { type := ty, endpoint := ep }
  | _ => .error "cannot unmarshal into PlcService"

/-- Decode a `PlcOperation` from JSON following the struct's json tags. -/
def decodePlcOperation : Json → Except String PlcOperation
  | .null => .ok { sig := "", prev := none, type := "", services := none,
                   alsoKnownAs := none, rotationKeys := none, verificationMethods := none }
  | .obj fields =>
    match decStrField fields "sig" with
    | .error e => .error e
    | .ok sig =>
    match decOptStrField fields "prev" with
    | .error e => .error e
    | .ok prev =>
    match decStrField fields "type" with
    | .error e => .error e
    | .ok ty =>
    match decMapField decodePlcService fields "services" with
    | .error e => .error e
    | .ok services =>
    match decStrListField fields "alsoKnownAs" with
    | .error e => .error e
    | .ok aka =>
    match decStrListField fields "rotationKeys" with
    | .error e => .error e
    | .ok rot =>
    match decMapField decGoString fields "verificationMethods" with
    | .error e => .error e
    | .ok vm =>
      .ok { sig := sig, prev := prev, type := ty, services := services,
            alsoKnownAs := aka, rotationKeys := rot, verificationMethods := vm }
  | _ => .error "cannot unmarshal into PlcOperation"

/-- Decode a `PlcTombstone` from JSON. -/
def decodePlcTombstone : Json → Except String PlcTombstone
  | .null => .ok { sig := "", prev := "", type := "" }
  | .obj fields =>
    match decStrField fields "sig" with
    | .error e => .error e
    | .ok sig =>
    match decStrField fields "prev" with
    | .error e => .error e
    | .ok prev =>
    match decStrField fields "type" with
    | .error e => .error e
    | .ok ty => .ok { sig := sig, prev := prev, type := ty }
  | _ => .error "cannot unmarshal into PlcTombstone"

/-- Decode a `LegacyPlcOperation` from JSON. -/
def decodeLegacyPlcOperation : Json → Except String LegacyPlcOperation
  | .null => .ok { sig := "", prev := "", type := "", handle := "",
                   service := "", signingKey := "", recoveryKey := "" }
  | .obj fields =>
    match decStrField fields "sig" with
    | .error e => .error e
    | .ok sig =>
    match decStrField fields "prev" with
    | .error e => .error e
    | .ok prev =>
    match decStrField fields "type" with
    | .error e => .error e
    | .ok ty =>
    match decStrField fields "handle" with
    | .error e => .error e
    | .ok handle =>
    match decStrField fields "service" with
    | .error e => .error e
    | .ok service =>
    match decStrField fields "signingKey" with
    | .error e => .error e
    | .ok sk =>
    match decStrField fields "recoveryKey" with
    | .error e => .error e
    | .ok rk =>
      .ok { sig := sig, prev := prev, type := ty, handle := handle,
            service := service, signingKey := sk, recoveryKey := rk }
  | _ => .error "cannot unmarshal into LegacyPlcOperation"

/-- Constructor test used to model `null` handling for pointer fields. -/
def Json.isNull : Json → Bool
  | .null => true
  | _ => false

/-- Decode a `*PlcOperation`-style pointer field of the `Base` struct:
missing or `null` is nil, anything else is decoded with `dec`. -/
def decPtrField {α : Type} (dec : Json → Except String α)
    (fields : List (String × Json)) (k : String) : Except String (Option α) :=
  match Json.getField fields k with
  | none => .ok none
  | some jv => if jv.isNull then .ok none else (dec jv).map some

/-- The anonymous `Base` struct of `PlcOperationType.UnmarshalJSON`: the three
untagged pointer fields plus the `type` discriminator. -/
def decodeOpBase (j : Json) : Except String (PlcOperationType × String) :=
  match j with
  | .null => .ok (PlcOperationType.zero, "")
  | .obj fields =>
    match decStrField fields "type" with
    | .error e => .error e
    | .ok ty =>
    match decPtrField decodePlcOperation fields "PlcOperation" with
    | .error e => .error e
    | .ok po =>
    match decPtrField decodePlcTombstone fields "PlcTombstone" with
    | .error e => .error e
    | .ok pt =>
    match decPtrField decodeLegacyPlcOperation fields "LegacyPlcOperation" with
    | .error e => .error e
    | .ok lo => .ok (⟨po, pt, lo⟩, ty)
  | _ => .error "cannot unmarshal into Base"

/-- `PlcOperationType.UnmarshalJSON` of models.go: dispatch on the `type`
discriminator; the default branch accepts a persisted-form object (one that
carries one of the three struct-pointer fields) and otherwise fails with the
invalid-operation-type error. -/
def PlcOperationType.unmarshalJSON (j : Json) : Except String PlcOperationType :=
  match decodeOpBase j with
  | .error e => .error e
  | .ok (base, ty) =>
    if ty = "plc_operation" then
      (decodePlcOperation j).map fun op => ⟨some op, none, none⟩
    else if ty = "plc_tombstone" then
      (decodePlcTombstone j).map fun op => ⟨none, some op, none⟩
    else if ty = "create" then
      (decodeLegacyPlcOperation j).map fun op => ⟨none, none, some op⟩
    else if base.plcOperation ≠ none ∨ base.plcTombstone ≠ none ∨
        base.legacyPlcOperation ≠ none then
      .ok base
    else
      .error ("invalid operation type " ++ ty)

/-- Marshal a `[]string` (nil slice becomes `null`). -/
def marshalStrList : Option (List String) → Json
  | none => .null
  | some l => .arr (l.map Json.str)

/-- Marshal a `map[string]α` (nil map becomes `null`; `encoding/json` writes
map keys sorted, which is the canonical representation order). -/
def marshalMap {α : Type} (enc : α → Json) : Option (GoMap α) → Json
  | none => .null
  | some m => .obj (m.map fun p => (p.1, enc p.2))

/-- Marshal a `PlcService` following its json tags. -/
def marshalPlcService (s : PlcService) : Json :=
  .obj [("type", .str s.type), ("endpoint", .str s.endpoint)]

/-- Marshal a `PlcOperation` following its json tags, fields in declaration
order. -/
def marshalPlcOperation (op : PlcOperation) : Json :=
  .obj [("sig", .str op.sig),
        ("prev", op.prev.elim .null .str),
        ("type", .str op.type),
        ("services", marshalMap marshalPlcService op.services),
        ("alsoKnownAs", marshalStrList op.alsoKnownAs),
        ("rotationKeys", marshalStrList op.rotationKeys),
        ("verificationMethods", marshalMap Json.str op.verificationMethods)]

/-- Marshal a `PlcTombstone`. -/
def marshalPlcTombstone (t : PlcTombstone) : Json :=
  .obj [("sig", .str t.sig), ("prev", .str t.prev), ("type", .str t.type)]

/-- Marshal a `LegacyPlcOperation`. -/
def marshalLegacyPlcOperation (l : LegacyPlcOperation) : Json :=
  .obj [("sig", .str l.sig), ("prev", .str l.prev), ("type", .str l.type),
        ("handle", .str l.handle), ("service", .str l.service),
        ("signingKey", .str l.signingKey), ("recoveryKey", .str l.recoveryKey)]

/-- `PlcOperationType.Value` of models.go: `json.Marshal(o)` on the untagged
three-pointer struct — keys are the Go field names and there is no top-level
`type` key. -/
def PlcOperationType.value (o : PlcOperationType) : Json :=
  .obj [("PlcOperation", o.plcOperation.elim .null marshalPlcOperation),
        ("PlcTombstone", o.plcTombstone.elim .null marshalPlcTombstone),
        ("LegacyPlcOperation", o.legacyPlcOperation.elim .null marshalLegacyPlcOperation)]

/-- `PlcOperationType.Scan` of models.go: `json.Unmarshal` of the stored
document, which re-enters `UnmarshalJSON`. -/
def PlcOperationType.scan (j : Json) : Except String PlcOperationType :=
  PlcOperationType.unmarshalJSON j

/-! ### Round-trip of `Value` and `Scan` (claim C9) -/

/-- Ordering of map entries by key. -/
def keyLt {α : Type} (p q : String × α) : Prop := p.1 < q.1

/-! ### Durable and cache state (mirage.go)

PostgreSQL rows become Lean lists, the Redis keyspace becomes a flat
association map, and the logger becomes an appended list of messages (one tag
per `logger.Error`/`Info` call site).  External collaborators — the JSON text
lexer, `time.Parse`, DNS, HTTP, and DID grammar validation — are environment
parameters. -/

/-- `PlcEntry` of models.go (the gorm surrogate `ID` is elided). -/
structure PlcEntry where
  did : String
  operation : PlcOperationType
  cid : String
  nullified : Bool
  createdAt : String
deriving DecidableEq, Repr

/-- The zero `PlcEntry` left by a row-less `Scan`. -/
def zeroPlcEntry : PlcEntry :=
  { did := "", operation := PlcOperationType.zero, cid := "", nullified := false, createdAt := "" }

/-- `DidHandle` row of models.go (surrogate `Id` elided); `updatedAt` keeps the
RFC3339 text whose parse succeeded. -/
structure DidHandle where
  did : String
  handle : String
  updatedAt : String
deriving DecidableEq, Repr

/-- Redis key head `mirage/` (variable `redisPrefix`). -/
def redisPre : String := "mirage/"

/-- Redis key head `did_handle/` (variable `didHandlePrefix`). -/
def didHandlePre : String := "did_handle/"

/-- Redis key head `handle_did/` (variable `handleDidPrefix`). -/
def handleDidPre : String := "handle_did/"

/-- Durable store, cache and log state touched by the ingestion loop. -/
structure MirageState where
  redis : GoMap String
  plcEntries : List PlcEntry
  didHandles : List DidHandle
  logs : List String
deriving DecidableEq, Repr

/-- Redis `Get`: `none` models `redis.Nil`. -/
def redisGet (st : GoMap String) (k : String) : Option String :=
  List.lookup k st

/-- `db.Create(&entry)`: append, failing on the unique `cid` index. -/
def dbCreateEntry (l : List PlcEntry) (e : PlcEntry) : Except String (List PlcEntry) :=
  if l.any (fun x => x.cid = e.cid) then .error "duplicate cid"
  else .ok (l ++ [e])

/-- `DELETE FROM did_handles WHERE did = ?`. -/
def dbDeleteDidHandles (l : List DidHandle) (did : String) : List DidHandle :=
  l.filter (fun dh => dh.did ≠ did)

/-- Upsert with `ON CONFLICT (did) DO UPDATE SET handle, updated_at`. -/
def dbUpsertDidHandle (l : List DidHandle) (dh : DidHandle) : List DidHandle :=
  if l.any (fun x => x.did = dh.did) then
    l.map (fun x => if x.did = dh.did then { x with handle := dh.handle, updatedAt := dh.updatedAt } else x)
  else l ++ [dh]

/-- Append a log line. -/
def logMsg (st : MirageState) (m : String) : MirageState :=
  { st with logs := st.logs ++ [m] }

/-- External collaborators of the ingestion loop and resolver. -/
structure ExporterEnv where
  jsonParse : String → Except String Json
  timeParseOk : String → Bool
  lookupTXT : String → Except String (List String)
  httpGetBody : String → Except String (Nat × String)
  parseDIDOk : String → Bool

/-- Decode a `bool` struct field: missing or `null` keeps `false`. -/
def decBoolField (fields : List (String × Json)) (k : String) : Except String Bool :=
  match Json.getField fields k with
  | none => .ok false
  | some .null => .ok false
  | some (.bool b) => .ok b
  | some _ => .error ("cannot unmarshal into bool field " ++ k)

/-- Decode a `PlcEntry` from JSON; the `operation` field re-enters
`PlcOperationType.UnmarshalJSON` (which Go also calls on an explicit `null`,
but not on a missing key). -/
def decodePlcEntry : Json → Except String PlcEntry
  | .null => .ok zeroPlcEntry
  | .obj fields =>
    match decStrField fields "did" with
    | .error e => .error e
    | .ok did =>
    match (match Json.getField fields "operation" with
           | none => .ok PlcOperationType.zero
           | some jv => PlcOperationType.unmarshalJSON jv : Except String PlcOperationType) with
    | .error e => .error e
    | .ok op =>
    match decStrField fields "cid" with
    | .error e => .error e
    | .ok cid =>
    match decBoolField fields "nullified" with
    | .error e => .error e
    | .ok nullified =>
    match decStrField fields "createdAt" with
    | .error e => .error e
    | .ok createdAt =>
      .ok { did := did, operation := op, cid := cid, nullified := nullified,
            createdAt := createdAt }
  | _ => .error "cannot unmarshal into PlcEntry"

/-- `json.Unmarshal([]byte(pt), &entry)`: lex the line (external), then decode. -/
def parseEntryLine (env : ExporterEnv) (pt : String) : Except String PlcEntry :=
  match env.jsonParse pt with
  | .error e => .error e
  | .ok j => decodePlcEntry j

/-- The HTTPS `.well-known/atproto-did` leg of `ResolveHandle`. -/
def resolveHandleHttp (env : ExporterEnv) (handle : String) : Except String String :=
  match env.httpGetBody ("https://" ++ handle ++ "/.well-known/atproto-did") with
  | .error e => .error e
  | .ok (status, body) =>
    if status ≠ 200 then .error "non-200 status code"
    else if ¬ env.parseDIDOk body then .error "invalid did"
    else .ok body

/-- `ResolveHandle` of mirage.go: the DNS TXT leg returns the FIRST record
with the `did=` head — verbatim, including the head — and otherwise the HTTPS
leg runs. -/
def resolveHandle (env : ExporterEnv) (handle : String) : Except String String :=
  match env.lookupTXT ("_atproto." ++ handle) with
  | .ok recs =>
    match recs.find? (fun r => strHasPre r "did=") with
    | some r => .ok r
    | none => resolveHandleHttp env handle
  | .error _ => resolveHandleHttp env handle

/-- The projection tail of a non-tombstone entry in `runExporter`, once the
handle string has been selected: strip `at://`, parse the timestamp, upsert
the handle row, fill both cache directions, and reconcile collisions via
`ResolveHandle`. -/
def projectHandle (env : ExporterEnv) (st : MirageState) (entry : PlcEntry)
    (handle0 : String) : MirageState :=
  let handle := trimPre handle0 "at://"
  if ¬ env.timeParseOk entry.createdAt then
    logMsg st "failed to parse created at"
  else
    let st1 := { st with
      didHandles := dbUpsertDidHandle st.didHandles
        { did := entry.did, handle := handle, updatedAt := entry.createdAt },
      redis := goInsert st.redis (redisPre ++ didHandlePre ++ entry.did) handle }
    match redisGet st1.redis (redisPre ++ handleDidPre ++ handle) with
    | none =>
      { st1 with redis := goInsert st1.redis (redisPre ++ handleDidPre ++ handle) entry.did }
    | some curr =>
      if curr = entry.did then st1
      else
        match resolveHandle env handle with
        | .error _ => logMsg st1 "failed to resolve handle"
        | .ok res =>
          if res ≠ entry.did then logMsg st1 "handle did mismatch"
          else st1

/-- Everything `runExporter` does with a decoded entry after the cursor
bookkeeping: duplicate-skip on the `did_handle/<did>` cache key, log insert,
then tombstone deletion or handle projection. -/
def processEntry (env : ExporterEnv) (st : MirageState) (entry : PlcEntry) : MirageState :=
  if (redisGet st.redis (redisPre ++ didHandlePre ++ entry.did)).isSome then st
  else
    match dbCreateEntry st.plcEntries entry with
    | .error _ => logMsg st "failed to create entry"
    | .ok entries =>
      let st1 := { st with plcEntries := entries }
      if entry.operation.plcTombstone.isSome then
        { st1 with didHandles := dbDeleteDidHandles st1.didHandles entry.did }
      else
        match entry.operation.plcOperation with
        | some op =>
          if (op.alsoKnownAs.getD []).length = 0 then
            logMsg st1 "encountered operation with no aka"
          else
            projectHandle env st1 entry ((op.alsoKnownAs.getD []).headD "")
        | none =>
          match entry.operation.legacyPlcOperation with
          | some lop => projectHandle env st1 entry lop.handle
          | none => projectHandle env st1 entry ""

/-- One line of the NDJSON page in `runExporter`: skip empty lines, decode,
advance the cursor when this is the final split element (BEFORE the
duplicate-skip check and the insert), then process the entry. -/
def processLine (env : ExporterEnv) (isLast : Bool) (st : MirageState) (after : String)
    (pt : String) : MirageState × String :=
  if pt = "" then (st, after)
  else
    match parseEntryLine env pt with
    | .error _ => (logMsg st "failed to unmarshal export", after)
    | .ok entry =>
      let st1 := if isLast then
          { st with redis := goInsert st.redis (redisPre ++ "after") entry.createdAt }
        else st
      let after1 := if isLast then entry.createdAt else after
      (processEntry env st1 entry, after1)

/-- The `for i, pt := range pts` loop: `i == len(pts)-1` holds exactly on the
final element. -/
def processLines (env : ExporterEnv) (st : MirageState) (after : String) :
    List String → MirageState × String
  | [] => (st, after)
  | [pt] => processLine env true st after pt
  | pt :: rest =>
    let r := processLine env false st after pt
    processLines env r.1 r.2 rest

/-- Go `strings.Split(s, "\n")`, character-level. -/
def goSplitNewline (s : String) : List String :=
  (s.data.foldr
    (fun c acc => if c = '\n' then [] :: acc else (c :: acc.headD []) :: acc.tail)
    [[]]).map String.mk

/-- One whole page of `runExporter`: split the body on newlines and process
each line in order. -/
def processPage (env : ExporterEnv) (st : MirageState) (after : String)
    (body : String) : MirageState × String :=
  processLines env st after (goSplitNewline body)

/-! ### The resolver (mirage.go `ResolveDid`) and HTTP handlers -/

/-- Outcome of running Go code that may return a value, return an error, or
panic (nil-pointer dereference). -/
inductive GoResult (α : Type) where
  | ok (val : α)
  | err (msg : String)
  | panicked (msg : String)
deriving DecidableEq, Repr

/-- `DocVerificationMethod` of models.go. -/
structure DocVerificationMethod where
  id : String
  type : String
  controller : String
  publicKeyMultibase : String
deriving DecidableEq, Repr

/-- `DocService` of models.go. -/
structure DocService where
  id : String
  type : String
  serviceEndpoint : String
deriving DecidableEq, Repr

/-- `ResolveDidResponse` of models.go. -/
structure ResolveDidResponse where
  context : List String
  id : String
  alsoKnownAs : List String
  verificationMethod : List DocVerificationMethod
  service : List DocService
deriving DecidableEq, Repr

/-- The two base context URIs (variable `respContext`). -/
def respContext : List String :=
  ["https://www.w3.org/ns/did/v1", "https://w3id.org/security/multikey/v1"]

/-- `SELECT * FROM plc_entries WHERE did = ? ORDER BY created_at DESC LIMIT 1`
followed by `Scan`: the zero entry when no row matches; among the DID's rows
the one with the largest `created_at` (first such row on ties — SQL leaves
tie order unspecified). -/
def latestEntry (db : List PlcEntry) (did : String) : PlcEntry :=
  match db.filter (fun e => e.did = did) with
  | [] => zeroPlcEntry
  | e :: rest => rest.foldl (fun acc x => if acc.createdAt < x.createdAt then x else acc) e

/-- The verification-method loop of `ResolveDid`: format each multikey,
append unseen context URIs, emit one record per key (Go map iteration order
is arbitrary; the canonical sorted order is used). -/
def vmFold (cenv : CryptoEnv) (did : String) :
    List (String × String) → List String → List DocVerificationMethod →
    Except String (List String × List DocVerificationMethod)
  | [], ctxt, vm => .ok (ctxt, vm)
  | (kid, key) :: rest, ctxt, vm =>
    match formatKeyAndContext cenv key with
    | .error e => .error ("failed to format key and context: " ++ e)
    | .ok kac =>
      let ctxt1 := if ctxt.contains kac.context then ctxt else ctxt ++ [kac.context]
      vmFold cenv did rest ctxt1
        (vm ++ [{ id := did ++ "#" ++ kid, type := kac.type, controller := did,
                  publicKeyMultibase := kac.publicKeyMultibase }])

/-- The guarded verification-method step of `ResolveDid` (only runs when the
latest operation is a `plc_operation`). -/
def collectVm (cenv : CryptoEnv) (entry : PlcEntry) :
    Except String (List String × List DocVerificationMethod) :=
  match entry.operation.plcOperation with
  | none => .ok (respContext, [])
  | some op => vmFold cenv entry.did (op.verificationMethods.getD []) respContext []

/-- `ResolveDid` of mirage.go.  The service-collection step reads
`entry.Operation.PlcOperation.Services` WITHOUT a nil guard: when the latest
operation is not a `plc_operation` this is a nil-pointer dereference, modelled
as `GoResult.panicked`. -/
def resolveDid (cenv : CryptoEnv) (db : List PlcEntry) (did : String) :
    GoResult ResolveDidResponse :=
  let entry := latestEntry db did
  let aka :=
    match entry.operation.plcOperation with
    | some op => op.alsoKnownAs.getD []
    | none =>
      match entry.operation.legacyPlcOperation with
      | some lop => [lop.handle]
      | none => []
  match collectVm cenv entry with
  | .error e => .err e
  | .ok (ctxt, vm) =>
    match entry.operation.plcOperation with
    | none => .panicked "invalid memory address or nil pointer dereference"
    | some op =>
      let svcs := (op.services.getD []).map
        (fun p => DocService.mk ("#" ++ p.1) p.2.type p.2.endpoint)
      .ok { context := ctxt, id := entry.did, alsoKnownAs := aka,
            verificationMethod := vm, service := svcs }

/-- `handleResolveDid` of the route file: 500 with the error on failure, 200
on success; a panic in `ResolveDid` propagates (there is no tombstone → 404
path). -/
def handleResolveDidStatus (cenv : CryptoEnv) (db : List PlcEntry) (did : String) :
    GoResult Nat :=
  match resolveDid cenv db did with
  | .err _ => .ok 500
  | .ok _ => .ok 200
  | .panicked m => .panicked m

/-- `GetDidFromHandle` of mirage.go: cache only.  Returns
(did, found, error); every miss returns the not-tracked error (the durable
store is never consulted — the function takes only the cache). -/
def getDidFromHandle (redis : GoMap String) (handle : String) :
    Option String × Bool × Option String :=
  match redisGet redis (redisPre ++ handleDidPre ++ handle) with
  | some v => (some v, true, none)
  | none => (none, false,
      some "handle not found in cache. it may exist, but we are not tracking it")

/-- `handleGetDidFromHandle` of the route file: invalid handle → 404, a
non-nil error from `GetDidFromHandle` → 500 with the error message, not-found
→ 404, else 200 with the DID. -/
def handleGetDidFromHandle (validHandle : String → Bool) (redis : GoMap String)
    (handle : String) : Nat × String :=
  if ¬ validHandle handle then (404, "invalid handle")
  else
    let r := getDidFromHandle redis handle
    match r.2.2 with
    | some e => (500, e)
    | none =>
      if ¬ r.2.1 then
        (404, "handle not found in cache. it may exist, but we are not tracking it.")
      else (200, r.1.getD "")

/-! ### Sample data for concrete runs -/

/-- A concrete `plc_operation` feed line (JSON form). -/
def sampleOpJson : Json :=
  Json.obj [("did", Json.str "did:plc:abc"),
    ("operation", Json.obj [("type", Json.str "plc_operation"),
      ("alsoKnownAs", Json.arr [Json.str "at://alice.test"]), ("sig", Json.str "s")]),
    ("cid", Json.str "bafy1"), ("nullified", Json.bool false),
    ("createdAt", Json.str "2024-01-02T00:00:00Z")]

/-- A concrete `plc_tombstone` feed line (JSON form) for the same DID. -/
def sampleTombJson : Json :=
  Json.obj [("did", Json.str "did:plc:abc"),
    ("operation", Json.obj [("type", Json.str "plc_tombstone"),
      ("sig", Json.str "s"), ("prev", Json.str "bafy1")]),
    ("cid", Json.str "bafy2"), ("nullified", Json.bool false),
    ("createdAt", Json.str "2024-01-03T00:00:00Z")]

/-- A concrete environment: the lexer knows the two sample lines, timestamps
parse, DNS and HTTP are down. -/
def sampleEnv : ExporterEnv :=
  { jsonParse := fun s =>
      if s = "LOP" then .ok sampleOpJson
      else if s = "LT" then .ok sampleTombJson
      else .error "unexpected end of JSON input",
    timeParseOk := fun _ => true,
    lookupTXT := fun _ => .error "no such host",
    httpGetBody := fun _ => .error "connection refused",
    parseDIDOk := fun s => strHasPre s "did:" }

/-- The decoded form of `sampleOpJson`. -/
def opEntrySample : PlcEntry :=
  { did := "did:plc:abc",
    operation := ⟨some
      { sig := "s", prev := none, type := "plc_operation", services := none,
        alsoKnownAs := some ["at://alice.test"], rotationKeys := none,
        verificationMethods := none },
      none, none⟩,
    cid := "bafy1", nullified := false, createdAt := "2024-01-02T00:00:00Z" }

/-- The decoded form of `sampleTombJson`. -/
def tombEntrySample : PlcEntry :=
  { did := "did:plc:abc",
    operation := ⟨none, some { sig := "s", prev := "bafy1", type := "plc_tombstone" }, none⟩,
    cid := "bafy2", nullified := false, createdAt := "2024-01-03T00:00:00Z" }

/-- A concrete legacy-create entry. -/
def legacyEntrySample : PlcEntry :=
  { did := "did:plc:leg",
    operation := ⟨none, none, some
      { sig := "s", prev := "", type := "create", handle := "bob.test",
        service := "https://bob.pds", signingKey := "k1", recoveryKey := "k2" }⟩,
    cid := "bafy3", nullified := false, createdAt := "2024-01-04T00:00:00Z" }

/-- State in which `did:plc:abc` is already projected AND cached in
`did_handle/` — the steady state after its create operation. -/
def stCached : MirageState :=
  { redis := [("mirage/did_handle/did:plc:abc", "alice.test")],
    plcEntries := [opEntrySample],
    didHandles := [{ did := "did:plc:abc", handle := "alice.test",
                     updatedAt := "2024-01-02T00:00:00Z" }],
    logs := [] }

/-- State in which `did:plc:abc` is projected in the durable handle index but
has NO `did_handle/` cache entry. -/
def stUncached : MirageState :=
  { redis := [],
    plcEntries := [opEntrySample],
    didHandles := [{ did := "did:plc:abc", handle := "alice.test",
                     updatedAt := "2024-01-02T00:00:00Z" }],
    logs := [] }

/-- The cursor a single line leaves behind when it is the final split element:
the entry's `created_at` when the line is non-empty and decodes, the incoming
cursor otherwise. -/
def lineCursor (env : ExporterEnv) (after pt : String) : String :=
  if pt = "" then after
  else
    match parseEntryLine env pt with
    | .error _ => after
    | .ok e => e.createdAt

/-! ## Theorems -/

/-- A string with a verified head splits as that head plus the tail. -/
lemma strHasPre_append (s p : String) (h : strHasPre s p = true) :
    p ++ String.mk (s.data.drop p.data.length) = s := by
  have hp : p.data <+: s.data := by simpa [strHasPre] using h
  obtain ⟨t, ht⟩ := hp
  apply String.ext
  rw [String.data_append]
  rw [← ht, List.drop_left]

/-- A successful `parseMultikey` certifies the `did:key:` head on the input and
the `z` multibase tag on the stripped remainder. -/
lemma extractMultikey_ok_iff (key mk1 : String) :
    extractMultikey key = .ok mk1 ↔
      (strHasPre key didKeyPre = true ∧ mk1 = trimPre key didKeyPre) := by
  unfold extractMultikey
  by_cases h : strHasPre key didKeyPre = true
  · simp [h, eq_comm]
  · simp only [Bool.not_eq_true] at h
    simp [h]

lemma extractPrefixedBytes_ok_pre (mk1 : String) (bs : List Nat)
    (h : extractPrefixedBytes mk1 = .ok bs) :
    strHasPre mk1 base58MultibasePre = true := by
  unfold extractPrefixedBytes at h
  by_cases h2 : strHasPre mk1 base58MultibasePre = true
  · exact h2
  · simp only [Bool.not_eq_true] at h2
    simp [h2] at h

lemma parseMultikey_ok_pre (env : CryptoEnv) (key : String) (pm : ParsedMultikey)
    (h : parseMultikey env key = .ok pm) :
    strHasPre key didKeyPre = true ∧
    strHasPre (trimPre key didKeyPre) base58MultibasePre = true := by
  unfold parseMultikey at h
  cases hem : extractMultikey key with
  | error e => simp [hem] at h
  | ok mk1 =>
    simp only [hem] at h
    obtain ⟨h1, hmk⟩ := (extractMultikey_ok_iff key mk1).mp hem
    subst hmk
    cases hep : extractPrefixedBytes (trimPre key didKeyPre) with
    | error e => simp [hep] at h
    | ok decoded =>
      exact ⟨h1, extractPrefixedBytes_ok_pre _ _ hep⟩

/-- C6: whenever `formatKeyAndContext` accepts an input, the emitted
`publicKeyMultibase` is the input with exactly the `did:key:` head removed —
appending it back to `did:key:` recovers the input — and the leading `z` tag is
retained on the output. -/
theorem multikey_roundtrip_C6 (env : CryptoEnv) (key : String) (kac : KeyAndContext)
    (h : formatKeyAndContext env key = .ok kac) :
    key = didKeyPre ++ kac.publicKeyMultibase ∧
    strHasPre kac.publicKeyMultibase base58MultibasePre = true := by
  unfold formatKeyAndContext at h
  cases hpm : parseMultikey env key with
  | error e => simp [hpm] at h
  | ok parsed =>
    simp only [hpm] at h
    obtain ⟨h1, h2⟩ := parseMultikey_ok_pre env key parsed hpm
    have hkey : key = didKeyPre ++ trimPre key didKeyPre := by
      have := strHasPre_append key didKeyPre h1
      rw [trimPre, if_pos h1]
      exact this.symm
    split_ifs at h with ha hb
    · simp only [Except.ok.injEq] at h
      subst h
      exact ⟨hkey, h2⟩
    · simp only [Except.ok.injEq] at h
      subst h
      exact ⟨hkey, h2⟩

/-- Witness for `multikey_roundtrip_C6` at the concrete input
`did:key:zJac` (whose base58 payload decodes to the secp256k1 marker). -/
theorem multikey_roundtrip_C6_witness :
    "did:key:zJac" = didKeyPre ++
      (KeyAndContext.mk secp256k1ContextURI "Multikey" "zJac").publicKeyMultibase ∧
    strHasPre (KeyAndContext.mk secp256k1ContextURI "Multikey" "zJac").publicKeyMultibase
      base58MultibasePre = true :=
  multikey_roundtrip_C6 cenvOk "did:key:zJac"
    (KeyAndContext.mk secp256k1ContextURI "Multikey" "zJac") (by decide)

/-- The two curve markers are mutually exclusive on the same byte string. -/
lemma hasPre_secp_not_p256 (bs : List Nat) (h : hasPre bs secp256k1DidPre = true) :
    hasPre bs p256DidPre = false := by
  unfold hasPre at h ⊢
  by_cases hl : bs.length < 2
  · simp [secp256k1DidPre, hl] at h
  · simp only [secp256k1DidPre, p256DidPre, List.length_cons, List.length_nil,
      List.length_singleton] at h ⊢
    simp only [hl, if_false, ite_false, decide_eq_true_eq] at h
    simp [hl, h]

/-- C7: the multikey decoder dispatches on the first two decoded bytes —
`0x80 0x24` yields algorithm ES256 with the ecdsa-2019 context, `0xe7 0x01`
yields ES256K with the secp256k1-2019 context, and any other head fails with
the unsupported-key error (propagated by `formatKeyAndContext`). -/
theorem multikey_curve_dispatch_C7 (env : CryptoEnv) (key mk1 : String) (bs : List Nat)
    (hm : extractMultikey key = .ok mk1) (hb : extractPrefixedBytes mk1 = .ok bs) :
    (hasPre bs p256DidPre = true →
      (∀ pm, parseMultikey env key = .ok pm → pm.jwtAlg = p256JwtAlg) ∧
      (∀ kac, formatKeyAndContext env key = .ok kac → kac.context = ecdsaContextURI) ∧
      (∀ kb, env.parseP256 (bs.drop 2) = .ok kb →
        parseMultikey env key = .ok { jwtAlg := p256JwtAlg, keyBytes := kb })) ∧
    (hasPre bs secp256k1DidPre = true →
      (∀ pm, parseMultikey env key = .ok pm → pm.jwtAlg = secp256k1JwtAlg) ∧
      (∀ kac, formatKeyAndContext env key = .ok kac → kac.context = secp256k1ContextURI) ∧
      (∀ kb, env.parseK256 (bs.drop 2) = .ok kb →
        parseMultikey env key = .ok { jwtAlg := secp256k1JwtAlg, keyBytes := kb })) ∧
    (hasPre bs p256DidPre = false → hasPre bs secp256k1DidPre = false →
      parseMultikey env key = .error "unsupported key type" ∧
      formatKeyAndContext env key = .error "failed to parse multikey: unsupported key type") := by
  have hred : parseMultikey env key =
      (if hasPre bs p256DidPre then
        match env.parseP256 (bs.drop 2) with
        | .error e => .error ("failed to parse P256 key: " ++ e)
        | .ok k => .ok { jwtAlg := p256JwtAlg, keyBytes := k }
      else if hasPre bs secp256k1DidPre then
        match env.parseK256 (bs.drop 2) with
        | .error e => .error ("failed to parse SECP256K1 key: " ++ e)
        | .ok k => .ok { jwtAlg := secp256k1JwtAlg, keyBytes := k }
      else .error "unsupported key type") := by
    unfold parseMultikey
    simp only [hm, hb]
  refine ⟨fun hP => ?_, fun hS => ?_, fun hP hS => ?_⟩
  · refine ⟨fun pm hpm => ?_, fun kac hk => ?_, fun kb hkb => ?_⟩
    · rw [hred] at hpm
      simp only [hP, ite_true] at hpm
      cases hc : env.parseP256 (bs.drop 2) with
      | error e => simp [hc] at hpm
      | ok k => simp only [hc, Except.ok.injEq] at hpm; subst hpm; rfl
    · unfold formatKeyAndContext at hk
      rw [hred] at hk
      simp only [hP, ite_true] at hk
      cases hc : env.parseP256 (bs.drop 2) with
      | error e => simp [hc] at hk
      | ok k =>
        simp [hc] at hk
        subst hk; rfl
    · rw [hred]
      simp only [hP, ite_true, hkb]
  · have hP := hasPre_secp_not_p256 bs hS
    refine ⟨fun pm hpm => ?_, fun kac hk => ?_, fun kb hkb => ?_⟩
    · rw [hred] at hpm
      simp only [hP, hS, Bool.false_eq_true, ite_false, ite_true] at hpm
      cases hc : env.parseK256 (bs.drop 2) with
      | error e => simp [hc] at hpm
      | ok k => simp only [hc, Except.ok.injEq] at hpm; subst hpm; rfl
    · unfold formatKeyAndContext at hk
      rw [hred] at hk
      simp only [hP, hS, Bool.false_eq_true, ite_false, ite_true] at hk
      cases hc : env.parseK256 (bs.drop 2) with
      | error e => simp [hc] at hk
      | ok k =>
        simp [hc, secp256k1JwtAlg, p256JwtAlg] at hk
        subst hk; rfl
    · rw [hred]
      simp only [hP, hS, Bool.false_eq_true, ite_false, ite_true, hkb]
  · have hp : parseMultikey env key = .error "unsupported key type" := by
      rw [hred]
      simp [hP, hS]
    refine ⟨hp, ?_⟩
    unfold formatKeyAndContext
    simp [hp]

/-- Witness for `multikey_curve_dispatch_C7` at `did:key:zJac`: the decoded
bytes are `0xe7 0x01`, so the secp256k1 branch applies. -/
theorem multikey_curve_dispatch_C7_witness :
    parseMultikey cenvOk "did:key:zJac" =
      .ok { jwtAlg := secp256k1JwtAlg, keyBytes := ([] : List Nat) } :=
  ((multikey_curve_dispatch_C7 cenvOk "did:key:zJac" "zJac" [0xe7, 0x01]
    (by decide) (by decide)).2.1 (by decide)).2.2 [] (by decide)

/-- C5 counterexample: a JSON object whose `type` discriminator is `bogus`
(not one of the three known values) is nevertheless accepted by
`PlcOperationType.UnmarshalJSON`, because it carries a `PlcTombstone` field
and therefore enters the persistence fallback branch. -/
theorem unknownTypeAccepted_C5_counterexample :
    decStrField [("type", Json.str "bogus"), ("PlcTombstone", Json.obj [])] "type" =
      .ok "bogus" ∧
    ("bogus" ∉ ["plc_operation", "plc_tombstone", "create"]) ∧
    PlcOperationType.unmarshalJSON
        (Json.obj [("type", Json.str "bogus"), ("PlcTombstone", Json.obj [])]) =
      .ok ⟨none, some ⟨"", "", ""⟩, none⟩ :=
  ⟨by decide, by decide, by decide⟩

/-- C5 (amended): decoding fails for every JSON value whose `type`
discriminator is not one of `plc_operation`, `plc_tombstone`, `create`,
PROVIDED the object does not carry one of the three persisted-form
struct-pointer fields (`PlcOperation`, `PlcTombstone`, `LegacyPlcOperation`);
such persisted-form objects are accepted by the fallback branch. -/
theorem unknownTypeRejected_C5 (j : Json)
    (h : ∀ base ty, decodeOpBase j = .ok (base, ty) →
      ty ≠ "plc_operation" ∧ ty ≠ "plc_tombstone" ∧ ty ≠ "create" ∧
      base.plcOperation = none ∧ base.plcTombstone = none ∧
      base.legacyPlcOperation = none) :
    ∃ e, PlcOperationType.unmarshalJSON j = .error e := by
  unfold PlcOperationType.unmarshalJSON
  cases hb : decodeOpBase j with
  | error e => exact ⟨e, rfl⟩
  | ok p =>
    obtain ⟨base, ty⟩ := p
    obtain ⟨h1, h2, h3, h4, h5, h6⟩ := h base ty hb
    refine ⟨"invalid operation type " ++ ty, ?_⟩
    simp [h1, h2, h3, h4, h5, h6]

/-- Witness for `unknownTypeRejected_C5`: an object with only the unknown
discriminator `bogus` is rejected. -/
theorem unknownTypeRejected_C5_witness :
    ∃ e, PlcOperationType.unmarshalJSON (Json.obj [("type", Json.str "bogus")]) = .error e := by
  apply unknownTypeRejected_C5
  intro base ty hbt
  rw [(by decide : decodeOpBase (Json.obj [("type", Json.str "bogus")]) =
    .ok (PlcOperationType.zero, "bogus"))] at hbt
  simp only [Except.ok.injEq, Prod.mk.injEq] at hbt
  obtain ⟨h1, h2⟩ := hbt
  subst h1
  subst h2
  exact ⟨by decide, by decide, by decide, rfl, rfl, rfl⟩

/-- Inserting a key above every key of the list appends at the end. -/
lemma goInsert_append {α : Type} (acc : GoMap α) (k : String) (v : α)
    (h : ∀ p ∈ acc, p.1 < k) : goInsert acc k v = acc ++ [(k, v)] := by
  induction acc with
  | nil => rfl
  | cons a rest ih =>
    have ha := h a (by simp)
    unfold goInsert
    rw [if_neg (lt_asymm ha), if_neg (ne_of_gt ha)]
    rw [ih (fun p hp => h p (List.mem_cons_of_mem _ hp))]
    simp

/-- Membership after `goInsert`. -/
lemma mem_goInsert {α : Type} (m : GoMap α) (k : String) (v : α) (p : String × α)
    (h : p ∈ goInsert m k v) : p = (k, v) ∨ p ∈ m := by
  induction m with
  | nil => simpa [goInsert] using h
  | cons a rest ih =>
    unfold goInsert at h
    by_cases h1 : k < a.1
    · rw [if_pos h1] at h
      rcases List.mem_cons.mp h with h2 | h2
      · exact Or.inl h2
      · exact Or.inr h2
    · rw [if_neg h1] at h
      by_cases h2 : k = a.1
      · rw [if_pos h2] at h
        rcases List.mem_cons.mp h with h3 | h3
        · exact Or.inl h3
        · exact Or.inr (List.mem_cons_of_mem _ h3)
      · rw [if_neg h2] at h
        rcases List.mem_cons.mp h with h3 | h3
        · exact Or.inr (h3 ▸ List.mem_cons_self _ _)
        · rcases ih h3 with h4 | h4
          · exact Or.inl h4
          · exact Or.inr (List.mem_cons_of_mem _ h4)

/-- `goInsert` preserves the sorted-keys invariant. -/
lemma goInsert_pairwise {α : Type} (m : GoMap α) (k : String) (v : α)
    (h : List.Pairwise keyLt m) : List.Pairwise keyLt (goInsert m k v) := by
  induction m with
  | nil => simp [goInsert, List.pairwise_cons, keyLt]
  | cons a rest ih =>
    rw [List.pairwise_cons] at h
    obtain ⟨ha, hrest⟩ := h
    unfold goInsert
    by_cases h1 : k < a.1
    · rw [if_pos h1]
      rw [List.pairwise_cons]
      refine ⟨?_, List.pairwise_cons.mpr ⟨ha, hrest⟩⟩
      intro p hp
      rcases List.mem_cons.mp hp with h2 | h2
      · exact h2 ▸ h1
      · exact lt_trans h1 (ha p h2)
    · rw [if_neg h1]
      by_cases h2 : k = a.1
      · rw [if_pos h2]
        rw [List.pairwise_cons]
        exact ⟨fun p hp => h2 ▸ ha p hp, hrest⟩
      · rw [if_neg h2]
        rw [List.pairwise_cons]
        refine ⟨?_, ih hrest⟩
        intro p hp
        rcases mem_goInsert rest k v p hp with h3 | h3
        · have : a.1 < k := lt_of_le_of_ne (not_lt.mp h1) (fun e => h2 e.symm)
          exact h3 ▸ this
        · exact ha p h3

/-- `decodeMapPairs` keeps the accumulator's sorted-keys invariant. -/
lemma decodeMapPairs_sorted {α : Type} (dec : Json → Except String α) :
    ∀ (pairs : List (String × Json)) (acc m : GoMap α),
      List.Pairwise keyLt acc → decodeMapPairs dec pairs acc = .ok m →
      List.Pairwise keyLt m
  | [], acc, m, hacc, h => by
    simp only [decodeMapPairs, Except.ok.injEq] at h
    exact h ▸ hacc
  | (k, jv) :: rest, acc, m, hacc, h => by
    simp only [decodeMapPairs] at h
    cases hd : dec jv with
    | error e => rw [hd] at h; cases h
    | ok v =>
      rw [hd] at h
      exact decodeMapPairs_sorted dec rest (goInsert acc k v) m
        (goInsert_pairwise acc k v hacc) h

/-- Decoding the marshalled form of a sorted map recovers it exactly. -/
lemma decodeMapPairs_roundtrip {α : Type} (dec : Json → Except String α) (enc : α → Json) :
    ∀ (m acc : GoMap α),
      (∀ p ∈ m, dec (enc p.2) = .ok p.2) →
      List.Pairwise keyLt (acc ++ m) →
      decodeMapPairs dec (m.map fun p => (p.1, enc p.2)) acc = .ok (acc ++ m)
  | [], acc, _, _ => by simp [decodeMapPairs]
  | (k, v) :: rest, acc, hdec, hsort => by
    simp only [List.map_cons, decodeMapPairs]
    simp only [hdec (k, v) (List.mem_cons_self _ _)]
    have hacck : ∀ p ∈ acc, p.1 < k := by
      intro p hp
      exact (List.pairwise_append.mp hsort).2.2 p hp (k, v) (List.mem_cons_self _ _)
    rw [goInsert_append acc k v hacck]
    have hsort' : List.Pairwise keyLt ((acc ++ [(k, v)]) ++ rest) := by
      simpa [List.append_assoc] using hsort
    have := decodeMapPairs_roundtrip dec enc rest (acc ++ [(k, v)])
      (fun p hp => hdec p (List.mem_cons_of_mem _ hp)) hsort'
    simpa [List.append_assoc] using this

/-- Element-level round-trip for string map values. -/
lemma decGoString_roundtrip (s : String) : decGoString (Json.str s) = .ok s := rfl

/-- Element-level round-trip for `PlcService`. -/
lemma decodePlcService_roundtrip (s : PlcService) :
    decodePlcService (marshalPlcService s) = .ok s := rfl

/-- Round-trip for `[]string` elements. -/
lemma decStrElems_roundtrip (l : List String) :
    decStrElems (l.map Json.str) = .ok l := by
  induction l with
  | nil => rfl
  | cons s rest ih => simp [decStrElems, decGoString, ih]

/-- Round-trip for tombstones, with the marshalled object spelled out. -/
lemma decodePlcTombstone_roundtrip (t : PlcTombstone) :
    decodePlcTombstone (marshalPlcTombstone t) = .ok t := rfl

/-- Round-trip for legacy operations. -/
lemma decodeLegacyPlcOperation_roundtrip (l : LegacyPlcOperation) :
    decodeLegacyPlcOperation (marshalLegacyPlcOperation l) = .ok l := rfl

/-- A `string` field whose looked-up value is a string literal decodes to it. -/
lemma decStrField_value (fields : List (String × Json)) (k s : String)
    (hget : Json.getField fields k = some (Json.str s)) :
    decStrField fields k = .ok s := by
  simp [decStrField, hget]

/-- A `*string` field round-trips through its marshalled form. -/
lemma decOptStrField_value (fields : List (String × Json)) (k : String) (o : Option String)
    (hget : Json.getField fields k = some (o.elim Json.null Json.str)) :
    decOptStrField fields k = .ok o := by
  cases o with
  | none => simp only [Option.elim] at hget; simp [decOptStrField, hget]
  | some s => simp only [Option.elim] at hget; simp [decOptStrField, hget]

/-- A `[]string` field round-trips through its marshalled form. -/
lemma decStrListField_value (fields : List (String × Json)) (k : String) (o : Option (List String))
    (hget : Json.getField fields k = some (marshalStrList o)) :
    decStrListField fields k = .ok o := by
  cases o with
  | none => simp only [marshalStrList] at hget; simp [decStrListField, hget]
  | some l =>
    simp only [marshalStrList] at hget
    simp [decStrListField, hget, decStrElems_roundtrip, Except.map]

/-- A map field round-trips through its marshalled form when its canonical
representation is key-sorted and elements round-trip. -/
lemma decMapField_value {α : Type} (dec : Json → Except String α) (enc : α → Json)
    (fields : List (String × Json)) (k : String) (om : Option (GoMap α))
    (hget : Json.getField fields k = some (marshalMap enc om))
    (hrt : ∀ x, dec (enc x) = .ok x)
    (hsort : ∀ m, om = some m → List.Pairwise keyLt m) :
    decMapField dec fields k = .ok om := by
  cases om with
  | none => simp only [marshalMap] at hget; simp [decMapField, hget]
  | some m =>
    simp only [marshalMap] at hget
    have hrtm := decodeMapPairs_roundtrip dec enc m [] (fun p _ => hrt p.2)
      (by simpa using hsort m rfl)
    simp only [List.nil_append] at hrtm
    simp [decMapField, hget, hrtm, Except.map]

/-- Round-trip for a full `PlcOperation` whose maps are canonical. -/
lemma decodePlcOperation_roundtrip (op : PlcOperation)
    (hs : ∀ m, op.services = some m → List.Pairwise keyLt m)
    (hv : ∀ m, op.verificationMethods = some m → List.Pairwise keyLt m) :
    decodePlcOperation (marshalPlcOperation op) = .ok op := by
  obtain ⟨sig, prev, ty, services, aka, rot, vm⟩ := op
  simp only [marshalPlcOperation, decodePlcOperation]
  rw [decStrField_value _ "sig" sig (by simp [Json.getField]),
    decOptStrField_value _ "prev" prev (by simp [Json.getField]),
    decStrField_value _ "type" ty (by simp [Json.getField]),
    decMapField_value decodePlcService marshalPlcService _ "services" services
      (by simp [Json.getField]) decodePlcService_roundtrip hs,
    decStrListField_value _ "alsoKnownAs" aka (by simp [Json.getField]),
    decStrListField_value _ "rotationKeys" rot (by simp [Json.getField]),
    decMapField_value decGoString Json.str _ "verificationMethods" vm
      (by simp [Json.getField]) decGoString_roundtrip hv]

/-- `decodePlcOperation_roundtrip` with the marshalled object spelled out, for
rewriting after `marshalPlcOperation` has been unfolded. -/
lemma decode_obj_of_op (op : PlcOperation)
    (hs : ∀ m, op.services = some m → List.Pairwise keyLt m)
    (hv : ∀ m, op.verificationMethods = some m → List.Pairwise keyLt m) :
    decodePlcOperation (Json.obj [("sig", Json.str op.sig),
      ("prev", op.prev.elim Json.null Json.str),
      ("type", Json.str op.type),
      ("services", marshalMap marshalPlcService op.services),
      ("alsoKnownAs", marshalStrList op.alsoKnownAs),
      ("rotationKeys", marshalStrList op.rotationKeys),
      ("verificationMethods", marshalMap Json.str op.verificationMethods)]) = .ok op :=
  decodePlcOperation_roundtrip op hs hv

/-- `decodePlcTombstone_roundtrip` with the object spelled out. -/
lemma decode_obj_of_tomb (t : PlcTombstone) :
    decodePlcTombstone (Json.obj [("sig", Json.str t.sig), ("prev", Json.str t.prev),
      ("type", Json.str t.type)]) = .ok t := rfl

/-- `decodeLegacyPlcOperation_roundtrip` with the object spelled out. -/
lemma decode_obj_of_legacy (l : LegacyPlcOperation) :
    decodeLegacyPlcOperation (Json.obj [("sig", Json.str l.sig), ("prev", Json.str l.prev),
      ("type", Json.str l.type), ("handle", Json.str l.handle),
      ("service", Json.str l.service), ("signingKey", Json.str l.signingKey),
      ("recoveryKey", Json.str l.recoveryKey)]) = .ok l := rfl

/-- Decoding the persisted (`Value`) form recovers the struct and an empty
`type` discriminator. -/
lemma value_decodeOpBase (v : PlcOperationType)
    (hcan : ∀ op, v.plcOperation = some op →
      (∀ m, op.services = some m → List.Pairwise keyLt m) ∧
      (∀ m, op.verificationMethods = some m → List.Pairwise keyLt m)) :
    decodeOpBase (PlcOperationType.value v) = .ok (v, "") := by
  obtain ⟨po, pt, lo⟩ := v
  cases po with
  | none =>
    cases pt <;> cases lo <;>
      simp [PlcOperationType.value, decodeOpBase, decPtrField, decStrField, Json.getField,
        Json.isNull, marshalPlcTombstone, marshalLegacyPlcOperation,
        decode_obj_of_tomb, decode_obj_of_legacy, Except.map]
  | some op =>
    have hop := decode_obj_of_op op (fun m hm => (hcan op rfl).1 m hm)
      (fun m hm => (hcan op rfl).2 m hm)
    cases pt <;> cases lo <;>
      simp [PlcOperationType.value, decodeOpBase, decPtrField, decStrField, Json.getField,
        Json.isNull, marshalPlcOperation, marshalPlcTombstone, marshalLegacyPlcOperation,
        decode_obj_of_tomb, decode_obj_of_legacy, hop, Except.map]

/-- Scanning the persisted form of a decodable struct recovers it: the `type`
discriminator is absent, so the fallback branch fires on the non-nil field. -/
lemma scan_value_eq (v : PlcOperationType)
    (hne : v.plcOperation ≠ none ∨ v.plcTombstone ≠ none ∨ v.legacyPlcOperation ≠ none)
    (hcan : ∀ op, v.plcOperation = some op →
      (∀ m, op.services = some m → List.Pairwise keyLt m) ∧
      (∀ m, op.verificationMethods = some m → List.Pairwise keyLt m)) :
    PlcOperationType.scan (PlcOperationType.value v) = .ok v := by
  unfold PlcOperationType.scan PlcOperationType.unmarshalJSON
  simp only [value_decodeOpBase v hcan]
  rw [if_neg (by decide), if_neg (by decide), if_neg (by decide), if_pos hne]

/-- A successfully decoded map field is key-sorted (canonical). -/
lemma decMapField_sorted {α : Type} (dec : Json → Except String α)
    (fields : List (String × Json)) (k : String) (om : Option (GoMap α))
    (h : decMapField dec fields k = .ok om) :
    ∀ m, om = some m → List.Pairwise keyLt m := by
  intro m hm
  subst hm
  unfold decMapField at h
  cases hg : Json.getField fields k with
  | none => simp [hg] at h
  | some jv =>
    cases jv with
    | null => simp [hg] at h
    | bool b => simp [hg] at h
    | num n => simp [hg] at h
    | str s => simp [hg] at h
    | arr es => simp [hg] at h
    | obj pairs =>
      simp only [hg] at h
      cases hd : decodeMapPairs dec pairs [] with
      | error e => simp [hd, Except.map] at h
      | ok m1 =>
        simp only [hd, Except.map, Except.ok.injEq, Option.some.injEq] at h
        subst h
        exact decodeMapPairs_sorted dec pairs [] m1 (by simp) hd

/-- A successfully decoded `PlcOperation` has canonical (key-sorted) maps. -/
lemma decodePlcOperation_canonical (j : Json) (op : PlcOperation)
    (h : decodePlcOperation j = .ok op) :
    (∀ m, op.services = some m → List.Pairwise keyLt m) ∧
    (∀ m, op.verificationMethods = some m → List.Pairwise keyLt m) := by
  cases j with
  | null =>
    simp only [decodePlcOperation, Except.ok.injEq] at h
    subst h
    exact ⟨fun m hm => (nomatch hm), fun m hm => nomatch hm⟩
  | bool b => simp [decodePlcOperation] at h
  | num n => simp [decodePlcOperation] at h
  | str s => simp [decodePlcOperation] at h
  | arr es => simp [decodePlcOperation] at h
  | obj fields =>
    simp only [decodePlcOperation] at h
    cases h1 : decStrField fields "sig" with
    | error e => simp [h1] at h
    | ok sig =>
    simp only [h1] at h
    cases h2 : decOptStrField fields "prev" with
    | error e => simp [h2] at h
    | ok prev =>
    simp only [h2] at h
    cases h3 : decStrField fields "type" with
    | error e => simp [h3] at h
    | ok ty =>
    simp only [h3] at h
    cases h4 : decMapField decodePlcService fields "services" with
    | error e => simp [h4] at h
    | ok services =>
    simp only [h4] at h
    cases h5 : decStrListField fields "alsoKnownAs" with
    | error e => simp [h5] at h
    | ok aka =>
    simp only [h5] at h
    cases h6 : decStrListField fields "rotationKeys" with
    | error e => simp [h6] at h
    | ok rot =>
    simp only [h6] at h
    cases h7 : decMapField decGoString fields "verificationMethods" with
    | error e => simp [h7] at h
    | ok vm =>
    simp only [h7, Except.ok.injEq] at h
    subst h
    exact ⟨decMapField_sorted decodePlcService fields "services" services h4,
      decMapField_sorted decGoString fields "verificationMethods" vm h7⟩

/-- A pointer field decoded to `some` came from `decodePlcOperation`, so it is
canonical. -/
lemma decPtrField_canonical (fields : List (String × Json)) (k : String)
    (po : Option PlcOperation)
    (h : decPtrField decodePlcOperation fields k = .ok po) :
    ∀ op, po = some op →
      (∀ m, op.services = some m → List.Pairwise keyLt m) ∧
      (∀ m, op.verificationMethods = some m → List.Pairwise keyLt m) := by
  intro op hop
  subst hop
  unfold decPtrField at h
  cases hg : Json.getField fields k with
  | none => simp [hg] at h
  | some jv =>
    simp only [hg] at h
    by_cases hn : jv.isNull = true
    · simp [hn] at h
    · simp only [Bool.not_eq_true] at hn
      simp only [hn, Bool.false_eq_true, if_false, ite_false] at h
      cases hd : decodePlcOperation jv with
      | error e => simp [hd, Except.map] at h
      | ok op1 =>
        simp only [hd, Except.map, Except.ok.injEq, Option.some.injEq] at h
        subst h
        exact decodePlcOperation_canonical jv op1 hd

/-- The `Base` decode only produces canonical `PlcOperation` pointers. -/
lemma decodeOpBase_canonical (j : Json) (base : PlcOperationType) (ty : String)
    (h : decodeOpBase j = .ok (base, ty)) :
    ∀ op, base.plcOperation = some op →
      (∀ m, op.services = some m → List.Pairwise keyLt m) ∧
      (∀ m, op.verificationMethods = some m → List.Pairwise keyLt m) := by
  intro op hop
  cases j with
  | null =>
    simp only [decodeOpBase, Except.ok.injEq, Prod.mk.injEq] at h
    obtain ⟨h1, h2⟩ := h
    subst h1
    exact nomatch hop
  | bool b => simp [decodeOpBase] at h
  | num n => simp [decodeOpBase] at h
  | str s => simp [decodeOpBase] at h
  | arr es => simp [decodeOpBase] at h
  | obj fields =>
    simp only [decodeOpBase] at h
    cases h1 : decStrField fields "type" with
    | error e => simp [h1] at h
    | ok ty1 =>
    simp only [h1] at h
    cases h2 : decPtrField decodePlcOperation fields "PlcOperation" with
    | error e => simp [h2] at h
    | ok po =>
    simp only [h2] at h
    cases h3 : decPtrField decodePlcTombstone fields "PlcTombstone" with
    | error e => simp [h3] at h
    | ok pt =>
    simp only [h3] at h
    cases h4 : decPtrField decodeLegacyPlcOperation fields "LegacyPlcOperation" with
    | error e => simp [h4] at h
    | ok lo =>
    simp only [h4, Except.ok.injEq, Prod.mk.injEq] at h
    obtain ⟨h5, h6⟩ := h
    subst h5
    exact decPtrField_canonical fields "PlcOperation" po h2 op hop

/-- C9: every variant produced by `PlcOperationType.UnmarshalJSON` survives the
persistence round-trip — `Value` marshals the three-pointer struct with no
top-level `type` key, and `Scan` reconstructs an equal variant through the
decoder's fallback branch. -/
theorem valueScanRoundtrip_C9 (j : Json) (v : PlcOperationType)
    (h : PlcOperationType.unmarshalJSON j = .ok v) :
    PlcOperationType.scan (PlcOperationType.value v) = .ok v := by
  unfold PlcOperationType.unmarshalJSON at h
  cases hb : decodeOpBase j with
  | error e => simp [hb] at h
  | ok p =>
    obtain ⟨base, ty⟩ := p
    simp only [hb] at h
    by_cases t1 : ty = "plc_operation"
    · rw [if_pos t1] at h
      cases hop : decodePlcOperation j with
      | error e => simp [hop, Except.map] at h
      | ok op =>
        simp only [hop, Except.map, Except.ok.injEq] at h
        subst h
        apply scan_value_eq
        · exact Or.inl (by simp)
        · intro op1 hop1
          simp only [Option.some.injEq] at hop1
          exact hop1 ▸ decodePlcOperation_canonical j op hop
    · rw [if_neg t1] at h
      by_cases t2 : ty = "plc_tombstone"
      · rw [if_pos t2] at h
        cases hop : decodePlcTombstone j with
        | error e => simp [hop, Except.map] at h
        | ok t =>
          simp only [hop, Except.map, Except.ok.injEq] at h
          subst h
          apply scan_value_eq
          · exact Or.inr (Or.inl (by simp))
          · intro op1 hop1
            exact nomatch hop1
      · rw [if_neg t2] at h
        by_cases t3 : ty = "create"
        · rw [if_pos t3] at h
          cases hop : decodeLegacyPlcOperation j with
          | error e => simp [hop, Except.map] at h
          | ok l =>
            simp only [hop, Except.map, Except.ok.injEq] at h
            subst h
            apply scan_value_eq
            · exact Or.inr (Or.inr (by simp))
            · intro op1 hop1
              exact nomatch hop1
        · rw [if_neg t3] at h
          by_cases t4 : base.plcOperation ≠ none ∨ base.plcTombstone ≠ none ∨
              base.legacyPlcOperation ≠ none
          · rw [if_pos t4] at h
            simp only [Except.ok.injEq] at h
            subst h
            apply scan_value_eq
            · exact t4
            · intro op1 hop1
              exact decodeOpBase_canonical j base ty hb op1 hop1
          · rw [if_neg t4] at h
            exact nomatch h

/-- Witness for `valueScanRoundtrip_C9`: the tombstone decoded from a concrete
feed object round-trips through `Value`/`Scan`. -/
theorem valueScanRoundtrip_C9_witness :
    PlcOperationType.scan (PlcOperationType.value
        ⟨none, some ⟨"s", "p", "plc_tombstone"⟩, none⟩) =
      .ok ⟨none, some ⟨"s", "p", "plc_tombstone"⟩, none⟩ :=
  valueScanRoundtrip_C9
    (Json.obj [("type", Json.str "plc_tombstone"), ("sig", Json.str "s"),
      ("prev", Json.str "p")])
    ⟨none, some ⟨"s", "p", "plc_tombstone"⟩, none⟩ (by decide)

/-! ### Cursor behaviour (claim C2) -/

/-- A single line only moves the cursor when it is the final split element. -/
lemma processLine_cursor (env : ExporterEnv) (isLast : Bool) (st : MirageState)
    (after pt : String) :
    (processLine env isLast st after pt).2 =
      if isLast then lineCursor env after pt else after := by
  unfold processLine lineCursor
  by_cases h : pt = ""
  · simp [h]
  · simp only [h, ite_false, if_neg, not_false_eq_true]
    cases hp : parseEntryLine env pt with
    | error e => simp [hp]
    | ok e => simp [hp]

/-- The loop's final cursor is decided entirely by the final split element. -/
lemma processLines_cursor (env : ExporterEnv) :
    ∀ (pts : List String) (st : MirageState) (a : String),
      (processLines env st a pts).2 =
        (match pts.getLast? with
         | none => a
         | some pt => lineCursor env a pt)
  | [], _, _ => by simp [processLines]
  | [pt], st, a => by
    simp [processLines, processLine_cursor]
  | pt :: pt2 :: rest, st, a => by
    have ih := processLines_cursor env (pt2 :: rest)
      (processLine env false st a pt).1 (processLine env false st a pt).2
    simp only [processLines] at ih ⊢
    rw [ih, processLine_cursor env false st a pt]
    simp [List.getLast?_cons_cons]

/-- C2 (amended): after one page, the cursor equals the `created_at` of the
final element of the newline-split whenever that element is non-empty and
decodes — the cursor is written before the duplicate-skip check, the insert
and the projection, so it advances even when that line is then skipped — and
is left unchanged when the final split element is empty (in particular for an
empty body, a body of only newlines, or a body ending in a newline) or fails
to decode. -/
theorem cursorAdvance_C2 (env : ExporterEnv) (st : MirageState) (after body : String) :
    (processPage env st after body).2 =
      (match (goSplitNewline body).getLast? with
       | none => after
       | some pt =>
         if pt = "" then after
         else
           match parseEntryLine env pt with
           | .error _ => after
           | .ok e => e.createdAt) := by
  unfold processPage
  rw [processLines_cursor]
  cases (goSplitNewline body).getLast? with
  | none => rfl
  | some pt => rfl

/-- C2 counterexample: a page consisting of one decodable line followed by a
trailing newline leaves the cursor unchanged, although the final non-empty
line carries `created_at` `2024-01-02T00:00:00Z` — the code keys the cursor
write on the final SPLIT element (here the empty string), not the final
non-empty line, and the claim as stated fails. -/
theorem cursorAdvance_C2_counterexample :
    ((goSplitNewline "LOP\n").filter (fun l => l ≠ "")).getLast? = some "LOP" ∧
    (parseEntryLine sampleEnv "LOP").toOption.map (fun e => e.createdAt) =
      some "2024-01-02T00:00:00Z" ∧
    (processPage sampleEnv ⟨[], [], [], []⟩ "A" "LOP\n").2 = "A" :=
  ⟨by decide, by decide, by decide⟩

/-! ### Tombstone projection (claim C1) -/

/-- The `did_handle/` cache key of a DID never collides with the cursor key. -/
lemma didHandleKey_ne_afterKey (did : String) :
    (redisPre ++ didHandlePre ++ did) ≠ (redisPre ++ "after") := by
  intro h
  have h2 := congrArg String.length h
  rw [String.length_append, String.length_append, String.length_append] at h2
  have e1 : redisPre.length = 7 := rfl
  have e2 : didHandlePre.length = 11 := rfl
  have e3 : String.length "after" = 5 := rfl
  rw [e1, e2, e3] at h2
  omega

/-- `goInsert` at one key does not disturb lookups at another. -/
lemma lookup_goInsert_ne {α : Type} (m : GoMap α) (k k1 : String) (v : α)
    (h : k1 ≠ k) : List.lookup k1 (goInsert m k v) = List.lookup k1 m := by
  have hb : (k1 == k) = false := beq_eq_false_iff_ne.mpr h
  induction m with
  | nil => simp [goInsert, List.lookup, hb]
  | cons a rest ih =>
    unfold goInsert
    by_cases h1 : k < a.1
    · rw [if_pos h1]
      simp [List.lookup, hb]
    · rw [if_neg h1]
      by_cases h2 : k = a.1
      · rw [if_pos h2]
        have h3 : (k1 == a.1) = false := h2 ▸ hb
        simp [List.lookup, hb, h3]
      · rw [if_neg h2]
        simp only [List.lookup]
        cases hb2 : k1 == a.1 <;> simp [ih]

/-- A tombstone entry that passes the duplicate-skip check and the unique-cid
insert deletes every handle row of its DID. -/
lemma processEntry_tombstone (env : ExporterEnv) (st : MirageState) (e : PlcEntry)
    (ht : e.operation.plcTombstone.isSome = true)
    (hcache : redisGet st.redis (redisPre ++ didHandlePre ++ e.did) = none)
    (hcid : ∀ x ∈ st.plcEntries, x.cid ≠ e.cid) :
    ∀ dh ∈ (processEntry env st e).didHandles, dh.did ≠ e.did := by
  unfold processEntry
  rw [hcache]
  simp only [Option.isSome_none, Bool.false_eq_true, if_false, ite_false]
  have hdb : dbCreateEntry st.plcEntries e = .ok (st.plcEntries ++ [e]) := by
    unfold dbCreateEntry
    rw [if_neg]
    simp only [List.any_eq_true, decide_eq_true_eq, not_exists]
    intro x
    intro hx
    exact hcid x hx.1 hx.2
  simp only [hdb, ht, if_true, ite_true]
  intro dh hdh
  unfold dbDeleteDidHandles at hdh
  have := List.of_mem_filter hdh
  simpa using this

/-- C1 (amended): after the ingestion loop processes a tombstone line, no
handle-index row remains for that DID — PROVIDED the DID had no
`did_handle/<did>` cache entry when the tombstone arrived and the entry's cid
was new; a cached DID is skipped entirely by the duplicate-skip rule (no
insert, no deletion), so its rows survive. -/
theorem tombstoneDeletes_C1 (env : ExporterEnv) (isLast : Bool) (st : MirageState)
    (after pt : String) (e : PlcEntry)
    (hp : parseEntryLine env pt = .ok e)
    (hne : pt ≠ "")
    (ht : e.operation.plcTombstone.isSome = true)
    (hcache : redisGet st.redis (redisPre ++ didHandlePre ++ e.did) = none)
    (hcid : ∀ x ∈ st.plcEntries, x.cid ≠ e.cid) :
    ∀ dh ∈ (processLine env isLast st after pt).1.didHandles, dh.did ≠ e.did := by
  unfold processLine
  rw [if_neg hne]
  simp only [hp]
  cases isLast with
  | false =>
    simp only [ite_false, Bool.false_eq_true, if_false]
    exact processEntry_tombstone env st e ht hcache hcid
  | true =>
    simp only [ite_true, if_true]
    apply processEntry_tombstone env _ e ht
    · show redisGet (goInsert st.redis (redisPre ++ "after") e.createdAt)
        (redisPre ++ didHandlePre ++ e.did) = none
      unfold redisGet at hcache ⊢
      rw [lookup_goInsert_ne st.redis _ _ _ (didHandleKey_ne_afterKey e.did)]
      exact hcache
    · exact hcid

/-- C1 counterexample: the same tombstone arriving while the DID still has a
`did_handle/<did>` cache entry is skipped whole — the handle-index row for
`did:plc:abc` survives processing, refuting the claim's "regardless of
whether the DID already had a did_handle cache entry". -/
theorem tombstoneDeletes_C1_counterexample :
    (parseEntryLine sampleEnv "LT").toOption.map
        (fun e => (e.did, e.operation.plcTombstone.isSome)) = some ("did:plc:abc", true) ∧
    redisGet stCached.redis (redisPre ++ didHandlePre ++ "did:plc:abc") = some "alice.test" ∧
    ((processLine sampleEnv false stCached "A" "LT").1.didHandles.any
      (fun dh => dh.did = "did:plc:abc")) = true :=
  ⟨by decide, by decide, by decide⟩

/-- Witness for `tombstoneDeletes_C1`: with no cache entry, the tombstone line
removes the handle row. -/
theorem tombstoneDeletes_C1_witness :
    ((processLine sampleEnv true stUncached "A" "LT").1.didHandles.any
      (fun dh => dh.did = "did:plc:abc")) = false := by
  have h := tombstoneDeletes_C1 sampleEnv true stUncached "A" "LT" tombEntrySample
    (by decide) (by decide) (by decide) (by decide) (by decide)
  rw [List.any_eq_false]
  intro dh hdh
  simpa using h dh hdh

/-! ### Claims C3, C4, C8, C10 -/

/-- C3: resolving a DID whose latest stored operation is a tombstone does NOT
return a Gone error (and the route does not answer 404) — `ResolveDid` has no
tombstone branch at all and instead dereferences the nil `PlcOperation`
pointer at the service-collection step, which panics; the route's only error
mapping is 500. -/
theorem tombstoneResolve_C3 :
    (latestEntry [tombEntrySample] "did:plc:abc").operation.plcTombstone.isSome = true ∧
    resolveDid cenvOk [tombEntrySample] "did:plc:abc" =
      .panicked "invalid memory address or nil pointer dereference" ∧
    handleResolveDidStatus cenvOk [tombEntrySample] "did:plc:abc" =
      .panicked "invalid memory address or nil pointer dereference" :=
  ⟨by decide, by decide, by decide⟩

/-- C4: `GetDidFromHandle` is cache-only (it does not even receive the
durable store), but a cache miss is reported through a non-nil error, so the
route answers 500 with the not-tracked message — the handler's 404 branch is
unreachable and the claimed 404 never happens. -/
theorem notTracked500_C4 (validHandle : String → Bool) (redis : GoMap String)
    (handle : String)
    (hv : validHandle handle = true)
    (hmiss : redisGet redis (redisPre ++ handleDidPre ++ handle) = none) :
    getDidFromHandle redis handle =
      (none, false, some "handle not found in cache. it may exist, but we are not tracking it") ∧
    handleGetDidFromHandle validHandle redis handle =
      (500, "handle not found in cache. it may exist, but we are not tracking it") := by
  constructor
  · unfold getDidFromHandle
    rw [hmiss]
  · unfold handleGetDidFromHandle getDidFromHandle
    rw [hmiss]
    simp [hv]

/-- Witness for `notTracked500_C4`: an untracked valid handle against an empty
cache yields 500 with the not-tracked message. -/
theorem notTracked500_C4_witness :
    getDidFromHandle [] "alice.test" =
      (none, false, some "handle not found in cache. it may exist, but we are not tracking it") ∧
    handleGetDidFromHandle (fun _ => true) [] "alice.test" =
      (500, "handle not found in cache. it may exist, but we are not tracking it") :=
  notTracked500_C4 (fun _ => true) [] "alice.test" rfl rfl

/-- C8: for every store and DID whose latest entry is a legacy `create` (so
`PlcOperation` is nil), `ResolveDid` dereferences `PlcOperation.Services`
unguarded and panics instead of returning a document with an empty services
list. -/
theorem legacyServicesPanic_C8 (cenv : CryptoEnv) (db : List PlcEntry) (did : String)
    (hleg : (latestEntry db did).operation.legacyPlcOperation.isSome = true)
    (hop : (latestEntry db did).operation.plcOperation = none) :
    resolveDid cenv db did = .panicked "invalid memory address or nil pointer dereference" := by
  clear hleg
  unfold resolveDid collectVm
  simp [hop]

/-- Witness for `legacyServicesPanic_C8` on a concrete legacy entry. -/
theorem legacyServicesPanic_C8_witness :
    resolveDid cenvOk [legacyEntrySample] "did:plc:leg" =
      .panicked "invalid memory address or nil pointer dereference" :=
  legacyServicesPanic_C8 cenvOk [legacyEntrySample] "did:plc:leg" (by decide) (by decide)

/-- C10: when the DNS TXT leg of `ResolveHandle` finds a record with the
`did=` head it returns that record whole — the `did=` head included — and such
a string can never equal a bare DID (which starts `did:`), so the ingestion
loop's reconciliation comparison `*res != entry.Did` reports a mismatch for
every DNS-verified handle. -/
theorem dnsTxtVerbatim_C10 (env : ExporterEnv) (handle : String) (recs : List String)
    (r : String)
    (hdns : env.lookupTXT ("_atproto." ++ handle) = .ok recs)
    (hfind : recs.find? (fun x => strHasPre x "did=") = some r) :
    resolveHandle env handle = .ok r ∧
    strHasPre r "did=" = true ∧
    ∀ d : String, strHasPre d "did:" = true → r ≠ d := by
  have hpre : strHasPre r "did=" = true := by
    have h0 := List.find?_some hfind
    simpa using h0
  refine ⟨?_, hpre, ?_⟩
  · unfold resolveHandle
    simp only [hdns, hfind]
  · intro d hd heq
    have h1 : ("did=" : String).data <+: r.data := by simpa [strHasPre] using hpre
    have h2 : ("did:" : String).data <+: d.data := by simpa [strHasPre] using hd
    obtain ⟨t1, ht1⟩ := h1
    obtain ⟨t2, ht2⟩ := h2
    have e1 : ("did=" : String).data = ['d', 'i', 'd', '='] := rfl
    have e2 : ("did:" : String).data = ['d', 'i', 'd', ':'] := rfl
    rw [e1] at ht1
    rw [e2] at ht2
    have hdata : r.data = d.data := congrArg String.data heq
    rw [← ht1, ← ht2] at hdata
    simp at hdata

/-- Witness for `dnsTxtVerbatim_C10`: a TXT answer with an unrelated record
and a `did=` record resolves to the full `did=` record, which differs from the
bare DID. -/
theorem dnsTxtVerbatim_C10_witness :
    resolveHandle
        { sampleEnv with lookupTXT := fun _ => .ok ["v=spf1", "did=did:plc:abc"] }
        "alice.test" = .ok "did=did:plc:abc" ∧
    "did=did:plc:abc" ≠ "did:plc:abc" :=
  ⟨(dnsTxtVerbatim_C10
      { sampleEnv with lookupTXT := fun _ => .ok ["v=spf1", "did=did:plc:abc"] }
      "alice.test" ["v=spf1", "did=did:plc:abc"] "did=did:plc:abc" rfl (by decide)).1,
   (dnsTxtVerbatim_C10
      { sampleEnv with lookupTXT := fun _ => .ok ["v=spf1", "did=did:plc:abc"] }
      "alice.test" ["v=spf1", "did=did:plc:abc"] "did=did:plc:abc" rfl (by decide)).2.2
      "did:plc:abc" (by decide)⟩

end Mirage
